import Mathlib

set_option autoImplicit false

/-!
Verification development for the revenue/cash-collection aggregation engine of
the MCP-facturation-pro repository (shallow embedding of
`src/mcp/tools/CalculateRevenueTool.js`, `CalculateQuotesRevenueTool`, and the
`BaseTool` result envelope).

Modelling conventions:
* SQLite `DATE` text values (zero-padded `YYYY-MM-DD`) are modelled by the
  `Date` structure below; SQLite compares such text lexicographically, which is
  the lexicographic order on (year, month, day) modelled by `Date.le`.
  `strftime` month extraction is the `m` field.
* SQLite `REAL` amounts are modelled by `ℚ` (the spec states its numeric
  equalities up to floating-point tolerance; over `ℚ` they are exact).
* A SQL `NULL`-able column is an `Option`; comparisons against `NULL` are
  `false` (a `NULL` comparison never satisfies a `WHERE` clause).
* Tables are lists of rows; `SUM`/`COUNT`/`AVG` are list folds, `GROUP BY
  month` is filtering on the month field, `COUNT(DISTINCT x)` is `dedup`
  length, and `JOIN` is a `bind` over matching rows.
-/

/-- A calendar date `YYYY-MM-DD`, as stored in the SQLite `DATE` text columns. -/
structure Date where
  y : Nat
  m : Nat
  d : Nat
deriving DecidableEq, Repr

/-- Lexicographic order on dates: the order SQLite uses on zero-padded
`YYYY-MM-DD` text. -/
def Date.le (a b : Date) : Bool :=
  decide (a.y < b.y) ||
    (decide (a.y = b.y) &&
      (decide (a.m < b.m) || (decide (a.m = b.m) && decide (a.d ≤ b.d))))

/-- The SQL window predicate `? <= x AND x <= ?`. -/
def inW (s e x : Date) : Bool := Date.le s x && Date.le x e

/-- Window predicate on a nullable date column: `NULL` compares to nothing. -/
def optInW (s e : Date) : Option Date → Bool
  | some x => inW s e x
  | none => false

/-- Month (`strftime` of `%m`) of a nullable date; `0` (never a calendar
month) when `NULL`. -/
def optMonth : Option Date → Nat
  | some x => x.m
  | none => 0

/-- The raw content of the `balance` column: `NULL`, the empty string, or a
numeric value (the code tests `balance IS NULL OR balance = ''` and otherwise
applies `CAST(balance AS REAL)`). -/
inductive Balance where
  | bnull : Balance
  | bempty : Balance
  | bnum : ℚ → Balance
deriving DecidableEq, Repr

/-- A row of the `invoices` table (the columns the revenue tool reads). -/
structure Invoice where
  id : Nat
  customer_id : Nat
  status : Nat
  invoice_date : Date
  paid_on : Option Date
  payment_date : Option Date
  updated_at : Option Date
  balance : Balance
  total_ht : ℚ
  total_ttc : ℚ
  vat_amount : ℚ
deriving DecidableEq, Repr

/-- A row of the `payments` ledger table. -/
structure Payment where
  invoice_id : Nat
  payment_date : Date
  amount_ttc : ℚ
  amount_ht : ℚ
  amount_vat : ℚ
deriving DecidableEq, Repr

/-- A row of the `quotes` table (the columns the quotes tool reads). -/
structure Quote where
  id : Nat
  customer_id : Nat
  quote_date : Date
  status : Nat
  total_ht : ℚ
  total_ttc : ℚ
  vat_amount : ℚ
deriving DecidableEq, Repr

/-- The relational store as seen by the revenue tool. -/
structure Store where
  invoices : List Invoice
  payments : List Payment
deriving DecidableEq, Repr

/-- `IIF(balance IS NULL OR balance = '', 0.0, CAST(balance AS REAL))`. -/
def paidBalance (i : Invoice) : ℚ :=
  match i.balance with
  | .bnull => 0
  | .bempty => 0
  | .bnum v => v

/-- `IIF(total_ttc = 0, 0.0, (total_ttc - paidBalance) / total_ttc)`. -/
def paidRatio (i : Invoice) : ℚ :=
  if i.total_ttc = 0 then 0 else (i.total_ttc - paidBalance i) / i.total_ttc

/-- `COALESCE(payment_date, updated_at)`. -/
def paidDate (i : Invoice) : Option Date :=
  match i.payment_date with
  | some x => some x
  | none => i.updated_at

/-- First `WHEN` arm of the collected-mode `CASE`:
`status = 1 AND paid_on >= ? AND paid_on <= ?`. -/
def fullB (s e : Date) (i : Invoice) : Bool :=
  decide (i.status = 1) && optInW s e i.paid_on

/-- The amount side of the second `WHEN` arm:
`paidBalance > 0 AND paidBalance < total_ttc`. -/
def prorataAmtB (i : Invoice) : Bool :=
  decide (0 < paidBalance i) && decide (paidBalance i < i.total_ttc)

/-- Second `WHEN` arm of the collected-mode `CASE`:
a prorata balance together with `COALESCE(payment_date, updated_at)` in the
window. -/
def prorataB (s e : Date) (i : Invoice) : Bool :=
  prorataAmtB i && optInW s e (paidDate i)

/-- Per-row value of the `sumCaseTTC` aggregate (collected mode, the `CASE`
arms are tried in order). -/
def caseTTC (s e : Date) (i : Invoice) : ℚ :=
  if fullB s e i then i.total_ttc
  else if prorataB s e i then i.total_ttc - paidBalance i
  else 0

/-- Per-row value of the `sumCaseHT` aggregate (collected mode). -/
def caseHT (s e : Date) (i : Invoice) : ℚ :=
  if fullB s e i then i.total_ht
  else if prorataB s e i then i.total_ht * paidRatio i
  else 0

/-- Per-row value of the `sumCaseVAT` aggregate (collected mode). -/
def caseVAT (s e : Date) (i : Invoice) : ℚ :=
  if fullB s e i then i.vat_amount
  else if prorataB s e i then i.vat_amount * paidRatio i
  else 0

/-- Per-row value of the `avgCaseTTC` aggregate; `none` is the SQL `NULL`
that `AVG` ignores.  Note its second arm tests only `paidBalance < total_ttc`
(without `paidBalance > 0`), exactly as in the source. -/
def avgCaseVal (s e : Date) (i : Invoice) : Option ℚ :=
  if fullB s e i then some i.total_ttc
  else if decide (paidBalance i < i.total_ttc) && optInW s e (paidDate i) then
    some (i.total_ttc - paidBalance i)
  else none

/-- `SUM(sumCaseTTC)` over the whole `invoices` table (collected fallback). -/
def sumCaseTTC (s e : Date) (l : List Invoice) : ℚ := (l.map (caseTTC s e)).sum

/-- `SUM(sumCaseHT)` over the whole `invoices` table (collected fallback). -/
def sumCaseHT (s e : Date) (l : List Invoice) : ℚ := (l.map (caseHT s e)).sum

/-- `SUM(sumCaseVAT)` over the whole `invoices` table (collected fallback). -/
def sumCaseVAT (s e : Date) (l : List Invoice) : ℚ := (l.map (caseVAT s e)).sum

/-- `AVG(avgCaseTTC)` over the whole `invoices` table, with the JS `|| 0`
applied to the `NULL` result on an empty argument set. -/
def avgCaseTTC (s e : Date) (l : List Invoice) : ℚ :=
  let vs := l.filterMap (avgCaseVal s e)
  if vs.length = 0 then 0 else vs.sum / vs.length

/-- The payments whose `payment_date` lies in the window. -/
def windowPayments (s e : Date) (ps : List Payment) : List Payment :=
  ps.filter (fun p => inW s e p.payment_date)

/-- Modelled from the spec: the Store helper `countPaymentsBetween(start, end)`
(`database.getPaymentsCountBetween` in the tool) is not present under `src/`
(only its call sites are).  Per the spec it is the purpose-built aggregate
"count payments in date range" used to decide the ledger-vs-fallback path. -/
def countPaymentsBetween (s e : Date) (st : Store) : Nat :=
  (windowPayments s e st.payments).length

/-- A row of the `all_rows` derived table of the ledger-path totals query. -/
structure ARow where
  invoice_id : Nat
  customer_id : Nat
  amount_ttc : ℚ
  amount_ht : ℚ
  amount_vat : ℚ
deriving DecidableEq, Repr

/-- The `p` CTE of the ledger-path totals query: window payments `JOIN`ed to
their invoice row (`JOIN invoices i ON i.id = p.invoice_id`). -/
def pJoin (s e : Date) (st : Store) : List (Payment × Invoice) :=
  (windowPayments s e st.payments).flatMap
    (fun p => (st.invoices.filter (fun i => decide (i.id = p.invoice_id))).map
      (fun i => (p, i)))

/-- `SELECT invoice_id FROM p` (used by the `NOT IN` exclusions). -/
def pJoinIds (s e : Date) (st : Store) : List Nat :=
  (pJoin s e st).map (fun pi => pi.1.invoice_id)

/-- The fully-settled leftover branch of the ledger totals query:
`status = 1 AND paid_on` in window `AND id NOT IN (SELECT invoice_id FROM p)`. -/
def fullLeftovers (s e : Date) (st : Store) : List Invoice :=
  st.invoices.filter
    (fun i => fullB s e i && !((pJoinIds s e st).contains i.id))

/-- The prorata leftover branch of the ledger totals query. -/
def prorataLeftovers (s e : Date) (st : Store) : List Invoice :=
  st.invoices.filter
    (fun i => prorataB s e i && !((pJoinIds s e st).contains i.id))

/-- The `all_rows` union of the ledger-path totals query. -/
def ledgerRows (s e : Date) (st : Store) : List ARow :=
  (pJoin s e st).map
    (fun pi => ⟨pi.1.invoice_id, pi.2.customer_id,
      pi.1.amount_ttc, pi.1.amount_ht, pi.1.amount_vat⟩)
  ++ (fullLeftovers s e st).map
    (fun i => ⟨i.id, i.customer_id, i.total_ttc, i.total_ht, i.vat_amount⟩)
  ++ (prorataLeftovers s e st).map
    (fun i => ⟨i.id, i.customer_id, i.total_ttc - paidBalance i,
      i.total_ht * paidRatio i, i.vat_amount * paidRatio i⟩)

/-- The summary row shape of the totals queries. -/
structure Totals where
  total_invoices : Nat
  total_invoiced_ttc : ℚ
  total_invoiced_ht : ℚ
  total_vat_amount : ℚ
  avg_invoice_amount : ℚ
  unique_customers : Nat
deriving DecidableEq, Repr

/-- Totals of the ledger path (`paymentsCount > 0`). -/
def ledgerTotals (s e : Date) (st : Store) : Totals :=
  let rows := ledgerRows s e st
  ⟨((rows.map (fun r => r.invoice_id)).dedup).length,
   (rows.map (fun r => r.amount_ttc)).sum,
   (rows.map (fun r => r.amount_ht)).sum,
   (rows.map (fun r => r.amount_vat)).sum,
   if rows.length = 0 then 0
     else (rows.map (fun r => r.amount_ttc)).sum / rows.length,
   ((rows.map (fun r => r.customer_id)).dedup).length⟩

/-- Totals of the fallback path: note the query has no `WHERE` clause, so
`COUNT(id)` and `COUNT(DISTINCT customer_id)` range over the whole table. -/
def fallbackTotals (s e : Date) (l : List Invoice) : Totals :=
  ⟨l.length,
   sumCaseTTC s e l,
   sumCaseHT s e l,
   sumCaseVAT s e l,
   avgCaseTTC s e l,
   ((l.map (fun i => i.customer_id)).dedup).length⟩

/-- Collected-mode totals: ledger path when the payments-count gate fires,
else the fallback. -/
def collectedTotals (s e : Date) (st : Store) : Totals :=
  if 0 < countPaymentsBetween s e st then ledgerTotals s e st
  else fallbackTotals s e st.invoices

/-- The `status` argument of the revenue tool. -/
inductive StatusArg where
  | tous : StatusArg
  | paye : StatusArg
  | non_paye : StatusArg
deriving DecidableEq, Repr

/-- The invoiced-mode status filter clause. -/
def statusMatch (sf : StatusArg) (i : Invoice) : Bool :=
  match sf with
  | .tous => true
  | .paye => decide (i.status = 1)
  | .non_paye => decide (i.status = 0)

/-- Rows matched by the invoiced-mode `WHERE` clause. -/
def invoicedRows (s e : Date) (sf : StatusArg) (l : List Invoice) : List Invoice :=
  l.filter (fun i => inW s e i.invoice_date && statusMatch sf i)

/-- Invoiced-mode totals (`filter_by_payment_date = false`). -/
def invoicedTotals (s e : Date) (sf : StatusArg) (l : List Invoice) : Totals :=
  let rows := invoicedRows s e sf l
  ⟨rows.length,
   (rows.map (fun i => i.total_ttc)).sum,
   (rows.map (fun i => i.total_ht)).sum,
   (rows.map (fun i => i.vat_amount)).sum,
   if rows.length = 0 then 0
     else (rows.map (fun i => i.total_ttc)).sum / rows.length,
   ((rows.map (fun i => i.customer_id)).dedup).length⟩

/-- The per-month values of one monthly-breakdown group. -/
structure MVals where
  cnt : Nat
  ttc : ℚ
  ht : ℚ
  vat : ℚ
deriving DecidableEq, Repr

/-- Month `m` values of the ledger-path monthly query over window `[ys, ye]`.
Its `p` CTE reads the `payments` table alone (no join), and the two invoice
branches exclude `invoice_id`s appearing in `p`. -/
def monthLedger (ys ye : Date) (st : Store) (mo : Nat) : MVals :=
  let pm := windowPayments ys ye st.payments
  let pIds := pm.map (fun p => p.invoice_id)
  let pmo := pm.filter (fun p => decide (p.payment_date.m = mo))
  let fulls := st.invoices.filter
    (fun i => fullB ys ye i && decide (optMonth i.paid_on = mo) &&
      !(pIds.contains i.id))
  let pros := st.invoices.filter
    (fun i => prorataB ys ye i && decide (optMonth (paidDate i) = mo) &&
      !(pIds.contains i.id))
  ⟨((pmo.map (fun p => p.invoice_id)).dedup).length + fulls.length + pros.length,
   (pmo.map (fun p => p.amount_ttc)).sum
     + (fulls.map (fun i => i.total_ttc)).sum
     + (pros.map (fun i => i.total_ttc - paidBalance i)).sum,
   (pmo.map (fun p => p.amount_ht)).sum
     + (fulls.map (fun i => i.total_ht)).sum
     + (pros.map (fun i => i.total_ht * paidRatio i)).sum,
   (pmo.map (fun p => p.amount_vat)).sum
     + (fulls.map (fun i => i.vat_amount)).sum
     + (pros.map (fun i => i.vat_amount * paidRatio i)).sum⟩

/-- Month `m` values of the fallback monthly query over window `[ys, ye]`:
a `UNION ALL` of the fully-settled branch and the prorata branch, with no
mutual exclusion between the two. -/
def monthFallback (ys ye : Date) (l : List Invoice) (mo : Nat) : MVals :=
  let fulls := l.filter
    (fun i => fullB ys ye i && decide (optMonth i.paid_on = mo))
  let pros := l.filter
    (fun i => prorataB ys ye i && decide (optMonth (paidDate i) = mo))
  ⟨fulls.length + pros.length,
   (fulls.map (fun i => i.total_ttc)).sum
     + (pros.map (fun i => i.total_ttc - paidBalance i)).sum,
   (fulls.map (fun i => i.total_ht)).sum
     + (pros.map (fun i => i.total_ht * paidRatio i)).sum,
   (fulls.map (fun i => i.vat_amount)).sum
     + (pros.map (fun i => i.vat_amount * paidRatio i)).sum⟩

/-- Collected-mode month values: the gate re-runs the payments count over the
monthly window. -/
def monthCollected (ys ye : Date) (st : Store) (mo : Nat) : MVals :=
  if 0 < countPaymentsBetween ys ye st then monthLedger ys ye st mo
  else monthFallback ys ye st.invoices mo

/-- Invoiced-mode month values: plain sums over invoices of the anchor year
grouped by `strftime` month of `invoice_date`, with the status filter. -/
def monthInvoiced (y : Nat) (sf : StatusArg) (l : List Invoice) (mo : Nat) : MVals :=
  let rows := (invoicedRows ⟨y, 1, 1⟩ ⟨y, 12, 31⟩ sf l).filter
    (fun i => decide (i.invoice_date.m = mo))
  ⟨rows.length,
   (rows.map (fun i => i.total_ttc)).sum,
   (rows.map (fun i => i.total_ht)).sum,
   (rows.map (fun i => i.vat_amount)).sum⟩

/-- The fixed French month-name table of `getMonthName`. -/
def frenchMonths : List String :=
  ["Janvier", "Février", "Mars", "Avril", "Mai", "Juin",
   "Juillet", "Août", "Septembre", "Octobre", "Novembre", "Décembre"]

/-- `getMonthName(month)` = `months[month - 1]`. -/
def getMonthName (mo : Nat) : String := frenchMonths.getD (mo - 1) ""

/-- One row of the returned `monthly_breakdown`. -/
structure MonthRow where
  month : Nat
  month_name : String
  total_invoices : Nat
  total_invoiced_ttc : ℚ
  total_invoiced_ht : ℚ
  total_vat_amount : ℚ
deriving DecidableEq, Repr

/-- The length-12 `Array.from` fill of the tool: emit months 1..12 in order,
taking each month group's values (zero when the group is absent — a month
with no matching rows has empty group filters, so its sums are already 0). -/
def monthlyBreakdown (f : Nat → MVals) : List MonthRow :=
  (List.range 12).map (fun k =>
    let v := f (k + 1)
    ⟨k + 1, getMonthName (k + 1), v.cnt, v.ttc, v.ht, v.vat⟩)

/-- The arguments object of `calculate_revenue` (all fields optional; absent
fields are `none`; a JS-falsy year value `0` behaves like an absent year). -/
structure Args where
  year : Option Nat
  start_year : Option Nat
  end_year : Option Nat
  start_date : Option Date
  end_date : Option Date
  status : StatusArg
  filter_by_payment_date : Option Bool
deriving DecidableEq, Repr

/-- JS truthiness of an optional numeric argument. -/
def truthy (o : Option Nat) : Bool := decide (o.getD 0 ≠ 0)

/-- The resolved period: display year and the `[currentStartDate,
currentEndDate]` window. -/
structure Period where
  calculatedYear : Nat
  startD : Date
  endD : Date
deriving DecidableEq, Repr

/-- The period-resolution cascade at the top of `execute` (`cy` is the current
year, `new Date().getFullYear()`). -/
def resolvePeriod (cy : Nat) (a : Args) : Period :=
  match a.start_date, a.end_date with
  | some s, some e => ⟨s.y, s, e⟩
  | _, _ =>
    if truthy a.year then
      let y := a.year.getD 0
      ⟨y, ⟨y, 1, 1⟩, ⟨y, 12, 31⟩⟩
    else if truthy a.start_year && truthy a.end_year then
      let sy := a.start_year.getD 0
      let ey := a.end_year.getD 0
      ⟨sy, ⟨sy, 1, 1⟩, ⟨ey, 12, 31⟩⟩
    else ⟨cy, ⟨cy, 1, 1⟩, ⟨cy, 12, 31⟩⟩

/-- The collected-mode monthly window `[yearStart, yearEnd]`: the custom range
when both dates were supplied, else the anchor year. -/
def monthlyWindow (a : Args) (p : Period) : Date × Date :=
  match a.start_date, a.end_date with
  | some _, some _ => (p.startD, p.endD)
  | _, _ => (⟨p.calculatedYear, 1, 1⟩, ⟨p.calculatedYear, 12, 31⟩)

/-- The `data` payload returned by `calculate_revenue`. -/
structure RevenueData where
  year : Nat
  query_type : String
  total_invoices : Nat
  total_invoiced_ttc : ℚ
  total_invoiced_ht : ℚ
  total_vat_amount : ℚ
  avg_invoice_amount : ℚ
  unique_customers : Nat
  monthly_breakdown : List MonthRow
deriving DecidableEq, Repr

/-- The body of `execute` inside its `try`: in this embedding the store is a
pure value and the (well-typed) arguments always pass `validateArgs`, so no
step throws; the `Except` layer records where a thrown error would surface. -/
def executeRevenueBody (cy : Nat) (a : Args) (st : Store) :
    Except String RevenueData :=
  let fbp := a.filter_by_payment_date.getD true
  let p := resolvePeriod cy a
  let t :=
    if fbp then collectedTotals p.startD p.endD st
    else invoicedTotals p.startD p.endD a.status st.invoices
  let w := monthlyWindow a p
  let f :=
    if fbp then monthCollected w.1 w.2 st
    else monthInvoiced p.calculatedYear a.status st.invoices
  .ok ⟨p.calculatedYear, if fbp then "paid" else "invoiced",
    t.total_invoices, t.total_invoiced_ttc, t.total_invoiced_ht,
    t.total_vat_amount, t.avg_invoice_amount, t.unique_customers,
    monthlyBreakdown f⟩

/-- The `BaseTool` result envelope: `formatResult` stamps `success:true`,
`data`, and the current ISO timestamp; `handleError` stamps `success:false`,
the message and the timestamp. -/
inductive Env (α : Type) where
  | ok : α → Nat → Env α
  | err : String → Nat → Env α
deriving DecidableEq, Repr

/-- `success` flag of an envelope. -/
def envSuccess {α : Type} : Env α → Bool
  | .ok _ _ => true
  | .err _ _ => false

/-- The `data` payload of an envelope (`none` on the error envelope, which
carries no result data). -/
def envData {α : Type} : Env α → Option α
  | .ok d _ => some d
  | .err _ _ => none

/-- The full `calculate_revenue` tool boundary: run the body, convert a thrown
error into the error envelope (`ts` abstracts `new Date().toISOString()`,
`cy` abstracts `new Date().getFullYear()`). -/
def executeRevenue (ts cy : Nat) (a : Args) (st : Store) : Env RevenueData :=
  match executeRevenueBody cy a st with
  | .ok d => .ok d ts
  | .error msg => .err msg ts

/-- Monthly breakdown of a revenue envelope (empty on the error envelope). -/
def envBreakdown (env : Env RevenueData) : List MonthRow :=
  match env with
  | .ok d _ => d.monthly_breakdown
  | .err _ _ => []

/-- The `status` argument of the quotes tool. -/
inductive QStatusArg where
  | tous : QStatusArg
  | acceptes : QStatusArg
  | en_attente : QStatusArg
  | refuses : QStatusArg
deriving DecidableEq, Repr

/-- The quotes status filter clause. -/
def qStatusMatch (sf : QStatusArg) (q : Quote) : Bool :=
  match sf with
  | .tous => true
  | .acceptes => decide (q.status = 1)
  | .en_attente => decide (q.status = 0)
  | .refuses => decide (q.status = 9)

/-- The arguments object of `calculate_quotes_revenue`. -/
structure QArgs where
  year : Option Nat
  start_date : Option Date
  end_date : Option Date
  status : QStatusArg
deriving DecidableEq, Repr

/-- Period resolution of the quotes tool (no `start_year`/`end_year`). -/
def resolveQuotesPeriod (cy : Nat) (a : QArgs) : Period :=
  match a.start_date, a.end_date with
  | some s, some e => ⟨s.y, s, e⟩
  | _, _ =>
    if truthy a.year then
      let y := a.year.getD 0
      ⟨y, ⟨y, 1, 1⟩, ⟨y, 12, 31⟩⟩
    else ⟨cy, ⟨cy, 1, 1⟩, ⟨cy, 12, 31⟩⟩

/-- Rows matched by the quotes `WHERE` clause. -/
def quoteRows (s e : Date) (sf : QStatusArg) (l : List Quote) : List Quote :=
  l.filter (fun q => inW s e q.quote_date && qStatusMatch sf q)

/-- One row of the quotes `monthly_breakdown`. -/
structure QMonthRow where
  month : Nat
  month_name : String
  total_quotes : Nat
  total_quouted_ttc : ℚ
  total_quouted_ht : ℚ
  total_vat_amount : ℚ
deriving DecidableEq, Repr

/-- Month `mo` group of the quotes monthly query (window is always the anchor
year). -/
def qMonth (y : Nat) (sf : QStatusArg) (l : List Quote) (mo : Nat) : MVals :=
  let rows := (quoteRows ⟨y, 1, 1⟩ ⟨y, 12, 31⟩ sf l).filter
    (fun q => decide (q.quote_date.m = mo))
  ⟨rows.length,
   (rows.map (fun q => q.total_ttc)).sum,
   (rows.map (fun q => q.total_ht)).sum,
   (rows.map (fun q => q.vat_amount)).sum⟩

/-- The quotes monthly breakdown: months 1..12 in order with French names. -/
def qMonthlyBreakdown (f : Nat → MVals) : List QMonthRow :=
  (List.range 12).map (fun k =>
    let v := f (k + 1)
    ⟨k + 1, getMonthName (k + 1), v.cnt, v.ttc, v.ht, v.vat⟩)

/-- The `data` payload returned by `calculate_quotes_revenue`. -/
structure QuotesData where
  year : Nat
  query_type : String
  total_quotes : Nat
  total_quouted_ttc : ℚ
  total_quouted_ht : ℚ
  total_vat_amount : ℚ
  avg_quote_amount : ℚ
  unique_customers : Nat
  monthly_breakdown : List QMonthRow
deriving DecidableEq, Repr

/-- The `calculate_quotes_revenue` tool (same envelope as the revenue tool). -/
def executeQuotes (ts cy : Nat) (a : QArgs) (l : List Quote) : Env QuotesData :=
  let p := resolveQuotesPeriod cy a
  let rows := quoteRows p.startD p.endD a.status l
  .ok ⟨p.calculatedYear, "quotes",
    rows.length,
    (rows.map (fun q => q.total_ttc)).sum,
    (rows.map (fun q => q.total_ht)).sum,
    (rows.map (fun q => q.vat_amount)).sum,
    (if rows.length = 0 then 0
      else (rows.map (fun q => q.total_ttc)).sum / rows.length),
    ((rows.map (fun q => q.customer_id)).dedup).length,
    qMonthlyBreakdown (qMonth p.calculatedYear a.status l)⟩ ts

/-- Monthly breakdown of a quotes envelope. -/
def qEnvBreakdown (env : Env QuotesData) : List QMonthRow :=
  match env with
  | .ok d _ => d.monthly_breakdown
  | .err _ _ => []

/-- Splitting a sum over a pointwise additive decomposition of the summand. -/
theorem listSumSplit {α : Type} (f g h : α → ℚ) :
    ∀ l : List α, (∀ x ∈ l, f x + g x = h x) →
      (l.map f).sum + (l.map g).sum = (l.map h).sum := by
  intro l
  induction l with
  | nil => intro _; simp
  | cons a t ih =>
    intro hp
    have ha := hp a (by simp)
    have ht := ih (fun x hx => hp x (by simp [hx]))
    simp only [List.map_cons, List.sum_cons]
    linarith

/-- Congruence for `flatMap` under a pointwise equality of the row function. -/
theorem flatMapCongr {α β : Type} (f g : α → List β) :
    ∀ l : List α, (∀ x ∈ l, f x = g x) → l.flatMap f = l.flatMap g := by
  intro l
  induction l with
  | nil => intro _; rfl
  | cons a t ih =>
    intro hp
    simp only [List.flatMap_cons]
    rw [hp a (by simp), ih (fun x hx => hp x (by simp [hx]))]

/-- Removing a middle element that a filter rejects. -/
theorem filterMiddleFalse {α : Type} (p : α → Bool) (l1 l2 : List α) (a : α)
    (h : p a = false) :
    (l1 ++ a :: l2).filter p = (l1 ++ l2).filter p := by
  simp [List.filter_append, List.filter_cons, h]

/-- Summing a mapped list around a middle element. -/
theorem sumMapMiddle {α : Type} (f : α → ℚ) (l1 l2 : List α) (a : α) :
    ((l1 ++ a :: l2).map f).sum = ((l1 ++ l2).map f).sum + f a := by
  simp [List.map_append, List.sum_append]
  ring

/-- Summing a mapped filtered list around a middle element the filter keeps. -/
theorem sumMapFilterMiddle {α : Type} (p : α → Bool) (f : α → ℚ)
    (l1 l2 : List α) (a : α) (hp : p a = true) :
    (((l1 ++ a :: l2).filter p).map f).sum =
      (((l1 ++ l2).filter p).map f).sum + f a := by
  simp [List.filter_append, List.filter_cons, hp, List.map_append,
    List.sum_append]
  ring

/-- First day of 2024, the window start used by the concrete instances. -/
def d0101 : Date := ⟨2024, 1, 1⟩

/-- Last day of 2024, the window end used by the concrete instances. -/
def d1231 : Date := ⟨2024, 12, 31⟩

/-- Scenario B of the spec: an UNPAID invoice of 1000 TTC with 400 left to
pay, partial payment dated 2024-05-01. -/
def invB : Invoice :=
  ⟨1, 7, 0, ⟨2024, 4, 1⟩, none, some ⟨2024, 5, 1⟩, some ⟨2024, 5, 2⟩,
    .bnum 400, 800, 1000, 200⟩

/-- A dual-bucket invoice: fully settled (status 1, `paid_on` 2024-05-10 in
window) while also carrying a prorata balance of 400 out of 1000 with
`payment_date` 2024-05-01 in window. -/
def cx1 : Invoice :=
  ⟨1, 7, 1, ⟨2024, 1, 10⟩, some ⟨2024, 5, 10⟩, some ⟨2024, 5, 1⟩, none,
    .bnum 400, 800, 1000, 200⟩

unseal Rat.add Rat.sub Rat.mul Rat.inv in
/-- C1: false as stated.  The invoice `cx1` satisfies every premise of the
claim — `0 < balance < total_ttc` and its best-known settlement date
(`payment_date` 2024-05-01) falls inside the queried period 2024 — yet in the
fallback path its contribution to the TTC total is its full `total_ttc`
(1000), not `total_ttc - balance` (600), because the fully-settled `CASE` arm
(status PAID, `paid_on` in window) is tried first. -/
theorem c1_counterexample :
    (0 < paidBalance cx1 ∧ paidBalance cx1 < cx1.total_ttc ∧
      optInW d0101 d1231 (paidDate cx1) = true) ∧
    sumCaseTTC d0101 d1231 [cx1] ≠ cx1.total_ttc - paidBalance cx1 := by
  decide

/-- C1 (amended): in the collected-mode fallback path, every invoice with
`0 < balance < total_ttc` whose best-known settlement date
(`payment_date` if present, else `updated_at`) falls within the queried
period, and which is not also captured by the fully-settled arm
(status PAID with `paid_on` in the period — that arm takes precedence),
contributes exactly `total_ttc - balance` to the TTC total,
`total_ht * paid_ratio` to the HT total and `vat_amount * paid_ratio` to the
VAT total, and `total_ttc - balance` to the monthly row of its settlement
month; when `total_ttc = 0` the ratio is defined as `0` (no division by
zero). -/
theorem c1_prorata_contribution (s e : Date) (i : Invoice)
    (l1 l2 : List Invoice) (mo : Nat)
    (hnf : fullB s e i = false)
    (h0 : 0 < paidBalance i) (hlt : paidBalance i < i.total_ttc)
    (hw : optInW s e (paidDate i) = true)
    (hm : optMonth (paidDate i) = mo) :
    caseTTC s e i = i.total_ttc - paidBalance i ∧
    caseHT s e i = i.total_ht * paidRatio i ∧
    caseVAT s e i = i.vat_amount * paidRatio i ∧
    sumCaseTTC s e (l1 ++ i :: l2) =
      sumCaseTTC s e (l1 ++ l2) + (i.total_ttc - paidBalance i) ∧
    sumCaseHT s e (l1 ++ i :: l2) =
      sumCaseHT s e (l1 ++ l2) + i.total_ht * paidRatio i ∧
    sumCaseVAT s e (l1 ++ i :: l2) =
      sumCaseVAT s e (l1 ++ l2) + i.vat_amount * paidRatio i ∧
    (monthFallback s e (l1 ++ i :: l2) mo).ttc =
      (monthFallback s e (l1 ++ l2) mo).ttc + (i.total_ttc - paidBalance i) ∧
    (∀ j : Invoice, j.total_ttc = 0 → paidRatio j = 0) := by
  have hpa : prorataAmtB i = true := by
    simp [prorataAmtB, h0, hlt]
  have hpb : prorataB s e i = true := by
    simp [prorataB, hpa, hw]
  have httc : caseTTC s e i = i.total_ttc - paidBalance i := by
    simp [caseTTC, hnf, hpb]
  have hht : caseHT s e i = i.total_ht * paidRatio i := by
    simp [caseHT, hnf, hpb]
  have hvat : caseVAT s e i = i.vat_amount * paidRatio i := by
    simp [caseVAT, hnf, hpb]
  refine ⟨httc, hht, hvat, ?_, ?_, ?_, ?_, ?_⟩
  · rw [sumCaseTTC, sumCaseTTC, sumMapMiddle, httc]
  · rw [sumCaseHT, sumCaseHT, sumMapMiddle, hht]
  · rw [sumCaseVAT, sumCaseVAT, sumMapMiddle, hvat]
  · have hfull : (fullB s e i && decide (optMonth i.paid_on = mo)) = false := by
      simp [hnf]
    have hpro : (prorataB s e i && decide (optMonth (paidDate i) = mo)) = true := by
      simp [hpb, hm]
    simp only [monthFallback]
    rw [filterMiddleFalse
        (fun j => fullB s e j && decide (optMonth j.paid_on = mo)) l1 l2 i hfull,
      sumMapFilterMiddle
        (fun j => prorataB s e j && decide (optMonth (paidDate j) = mo))
        (fun j => j.total_ttc - paidBalance j) l1 l2 i hpro]
    ring
  · intro j hj
    simp [paidRatio, hj]

unseal Rat.add Rat.sub Rat.mul Rat.inv in
/-- Witness for C1: Scenario B of the spec — invoice `invB` (1000 TTC,
balance 400, settlement date 2024-05-01, UNPAID) contributes exactly 600 TTC
to the 2024 totals and to the May 2024 monthly row. -/
theorem c1_witness :
    fullB d0101 d1231 invB = false ∧
    caseTTC d0101 d1231 invB = invB.total_ttc - paidBalance invB ∧
    (monthFallback d0101 d1231 [invB] 5).ttc =
      (monthFallback d0101 d1231 [] 5).ttc +
        (invB.total_ttc - paidBalance invB) ∧
    invB.total_ttc - paidBalance invB = 600 := by
  have h := c1_prorata_contribution d0101 d1231 invB [] [] 5
    (by decide) (by decide) (by decide) (by decide) (by decide)
  exact ⟨by decide, h.1, h.2.2.2.2.2.2.1, by decide⟩

/-- Scenario C of the spec: an UNPAID invoice with an empty-string balance
and no `paid_on`. -/
def invC : Invoice :=
  ⟨2, 9, 0, ⟨2024, 2, 1⟩, none, none, none, .bempty, 400, 500, 100⟩

/-- A ledger payment of 100 TTC dated 2024-06-01 referencing `invC`. -/
def payC : Payment := ⟨2, ⟨2024, 6, 1⟩, 100, 80, 20⟩

/-- Store holding only `invC` and its ledger payment `payC`. -/
def stC : Store := ⟨[invC], [payC]⟩

unseal Rat.add Rat.sub Rat.mul Rat.inv in
/-- C2: false as stated.  `invC` has status UNPAID, an empty-string balance
(treated as 0) and no `paid_on` at all, yet in COLLECTED mode over 2024 its
contribution to the TTC total and to the June monthly row is 100, not 0: the
ledger path sums its Payment row `payC` directly. -/
theorem c2_counterexample :
    (invC.status = 0 ∧ invC.balance = Balance.bempty ∧ invC.paid_on = none) ∧
    (collectedTotals d0101 d1231 stC).total_invoiced_ttc = 100 ∧
    (monthCollected d0101 d1231 stC 6).ttc = 100 ∧ (100 : ℚ) ≠ 0 := by
  decide

/-- C2 (amended): in COLLECTED mode, an UNPAID invoice whose balance is null,
empty string or 0 and which has no Payment ledger row dated inside the
queried window contributes exactly 0: removing it from the store changes
neither the TTC/HT/VAT totals nor any monthly row (on either the ledger path
or the fallback path). -/
theorem c2_zero_contribution (s e : Date) (l1 l2 : List Invoice)
    (ps : List Payment) (i : Invoice)
    (hst : i.status = 0) (hb : paidBalance i = 0)
    (hnp : ∀ p ∈ ps, inW s e p.payment_date = true → p.invoice_id ≠ i.id) :
    (collectedTotals s e ⟨l1 ++ i :: l2, ps⟩).total_invoiced_ttc =
      (collectedTotals s e ⟨l1 ++ l2, ps⟩).total_invoiced_ttc ∧
    (collectedTotals s e ⟨l1 ++ i :: l2, ps⟩).total_invoiced_ht =
      (collectedTotals s e ⟨l1 ++ l2, ps⟩).total_invoiced_ht ∧
    (collectedTotals s e ⟨l1 ++ i :: l2, ps⟩).total_vat_amount =
      (collectedTotals s e ⟨l1 ++ l2, ps⟩).total_vat_amount ∧
    ∀ mo : Nat, monthCollected s e ⟨l1 ++ i :: l2, ps⟩ mo =
      monthCollected s e ⟨l1 ++ l2, ps⟩ mo := by
  have hfB : fullB s e i = false := by
    simp [fullB, hst]
  have hpa : prorataAmtB i = false := by
    simp [prorataAmtB, hb]
  have hpB : prorataB s e i = false := by
    simp [prorataB, hpa]
  have hcT : caseTTC s e i = 0 := by simp [caseTTC, hfB, hpB]
  have hcH : caseHT s e i = 0 := by simp [caseHT, hfB, hpB]
  have hcV : caseVAT s e i = 0 := by simp [caseVAT, hfB, hpB]
  have hpj : pJoin s e ⟨l1 ++ i :: l2, ps⟩ = pJoin s e ⟨l1 ++ l2, ps⟩ := by
    unfold pJoin
    dsimp only
    apply flatMapCongr
    intro p hp
    have hpw : p ∈ ps ∧ inW s e p.payment_date = true := by
      simpa [windowPayments, List.mem_filter] using hp
    have hne : decide (i.id = p.invoice_id) = false := by
      simp only [decide_eq_false_iff_not]
      exact fun h => hnp p hpw.1 hpw.2 h.symm
    rw [filterMiddleFalse (fun j => decide (j.id = p.invoice_id)) l1 l2 i hne]
  have hpids : pJoinIds s e ⟨l1 ++ i :: l2, ps⟩ = pJoinIds s e ⟨l1 ++ l2, ps⟩ := by
    unfold pJoinIds
    rw [hpj]
  have hfl : fullLeftovers s e ⟨l1 ++ i :: l2, ps⟩ =
      fullLeftovers s e ⟨l1 ++ l2, ps⟩ := by
    unfold fullLeftovers
    dsimp only
    rw [hpids]
    exact filterMiddleFalse
      (fun j => fullB s e j && !((pJoinIds s e ⟨l1 ++ l2, ps⟩).contains j.id))
      l1 l2 i (by simp [hfB])
  have hpl : prorataLeftovers s e ⟨l1 ++ i :: l2, ps⟩ =
      prorataLeftovers s e ⟨l1 ++ l2, ps⟩ := by
    unfold prorataLeftovers
    dsimp only
    rw [hpids]
    exact filterMiddleFalse
      (fun j => prorataB s e j && !((pJoinIds s e ⟨l1 ++ l2, ps⟩).contains j.id))
      l1 l2 i (by simp [hpB])
  have hlr : ledgerRows s e ⟨l1 ++ i :: l2, ps⟩ = ledgerRows s e ⟨l1 ++ l2, ps⟩ := by
    unfold ledgerRows
    rw [hpj, hfl, hpl]
  have hgate : countPaymentsBetween s e ⟨l1 ++ i :: l2, ps⟩ =
      countPaymentsBetween s e ⟨l1 ++ l2, ps⟩ := rfl
  refine ⟨?_, ?_, ?_, ?_⟩
  · unfold collectedTotals
    rw [hgate]
    by_cases hg : 0 < countPaymentsBetween s e (⟨l1 ++ l2, ps⟩ : Store)
    · simp only [hg, if_true, ledgerTotals, hlr]
    · simp only [hg, if_false, fallbackTotals]
      rw [sumCaseTTC, sumCaseTTC, sumMapMiddle, hcT, add_zero]
  · unfold collectedTotals
    rw [hgate]
    by_cases hg : 0 < countPaymentsBetween s e (⟨l1 ++ l2, ps⟩ : Store)
    · simp only [hg, if_true, ledgerTotals, hlr]
    · simp only [hg, if_false, fallbackTotals]
      rw [sumCaseHT, sumCaseHT, sumMapMiddle, hcH, add_zero]
  · unfold collectedTotals
    rw [hgate]
    by_cases hg : 0 < countPaymentsBetween s e (⟨l1 ++ l2, ps⟩ : Store)
    · simp only [hg, if_true, ledgerTotals, hlr]
    · simp only [hg, if_false, fallbackTotals]
      rw [sumCaseVAT, sumCaseVAT, sumMapMiddle, hcV, add_zero]
  · intro mo
    unfold monthCollected
    rw [hgate]
    by_cases hg : 0 < countPaymentsBetween s e (⟨l1 ++ l2, ps⟩ : Store)
    · simp only [hg, if_true]
      unfold monthLedger
      dsimp only
      rw [filterMiddleFalse
          (fun j => fullB s e j && decide (optMonth j.paid_on = mo) &&
            !((windowPayments s e ps).map (fun p => p.invoice_id)).contains j.id)
          l1 l2 i (by simp [hfB]),
        filterMiddleFalse
          (fun j => prorataB s e j && decide (optMonth (paidDate j) = mo) &&
            !((windowPayments s e ps).map (fun p => p.invoice_id)).contains j.id)
          l1 l2 i (by simp [hpB])]
    · simp only [hg, if_false]
      unfold monthFallback
      dsimp only
      rw [filterMiddleFalse
          (fun j => fullB s e j && decide (optMonth j.paid_on = mo)) l1 l2 i
          (by simp [hfB]),
        filterMiddleFalse
          (fun j => prorataB s e j && decide (optMonth (paidDate j) = mo)) l1 l2 i
          (by simp [hpB])]

/-- Scenario A of the spec: a PAID invoice of 1200 TTC settled 2024-03-15. -/
def invA : Invoice :=
  ⟨3, 7, 1, ⟨2024, 2, 20⟩, some ⟨2024, 3, 15⟩, none, none, .bnull,
    1000, 1200, 200⟩

unseal Rat.add Rat.sub Rat.mul Rat.inv in
/-- Witness for C2 (amended): the Scenario C invoice `invC` (UNPAID, empty
balance, no ledger row) contributes nothing to the 2024 collected TTC total
next to the paid invoice `invA`. -/
theorem c2_witness :
    (invC.status = 0 ∧ paidBalance invC = 0) ∧
    (collectedTotals d0101 d1231 ⟨[] ++ invC :: [invA], []⟩).total_invoiced_ttc =
      (collectedTotals d0101 d1231 ⟨[] ++ [invA], []⟩).total_invoiced_ttc :=
  ⟨by decide,
    (c2_zero_contribution d0101 d1231 [] [invA] [] invC rfl (by decide)
      (by simp)).1⟩

/-- Sum of a flattened list of lists of rationals. -/
theorem sumFlatMap {α : Type} (f : α → List ℚ) :
    ∀ l : List α, (l.flatMap f).sum = (l.map (fun a => (f a).sum)).sum := by
  intro l
  induction l with
  | nil => rfl
  | cons a t ih => simp [List.flatMap_cons, List.sum_append, ih]

/-- Sum of a constant-valued map. -/
theorem sumConstMap {α : Type} (c : ℚ) :
    ∀ l : List α, (l.map (fun _ => c)).sum = l.length * c := by
  intro l
  induction l with
  | nil => simp
  | cons a t ih =>
    simp [ih]
    ring

/-- Under unique invoice ids, the id-match filter of an id that occurs
matches exactly one invoice row. -/
theorem filterIdLenOne (k : Nat) :
    ∀ invs : List Invoice, (invs.map (fun i => i.id)).Nodup →
      (∃ i ∈ invs, i.id = k) →
      (invs.filter (fun i => decide (i.id = k))).length = 1 := by
  intro invs
  induction invs with
  | nil => intro _ hex; simp at hex
  | cons a t ih =>
    intro hnd hex
    have hnd' : a.id ∉ t.map (fun i => i.id) ∧ (t.map (fun i => i.id)).Nodup := by
      simpa [List.nodup_cons] using hnd
    by_cases hak : a.id = k
    · have htn : t.filter (fun i => decide (i.id = k)) = [] := by
        rw [List.filter_eq_nil_iff]
        intro j hj
        simp only [decide_eq_true_eq]
        intro hjk
        exact hnd'.1 (List.mem_map.2 ⟨j, hj, hjk.trans hak.symm⟩)
      simp [List.filter_cons, hak, htn]
    · have hex' : ∃ i ∈ t, i.id = k := by
        rcases hex with ⟨i, hi, hik⟩
        rcases List.mem_cons.1 hi with rfl | hit
        · exact absurd hik hak
        · exact ⟨i, hit, hik⟩
      simpa [List.filter_cons, hak] using ih hnd'.2 hex'

/-- Under the schema FK and primary-key invariants, summing a payment-derived
quantity over the joined `p` CTE is summing it over the window payments. -/
theorem pJoinSum (s e : Date) (st : Store) (f : Payment → ℚ)
    (hnodup : (st.invoices.map (fun i => i.id)).Nodup)
    (hfk : ∀ p ∈ st.payments, ∃ i ∈ st.invoices, i.id = p.invoice_id) :
    ((pJoin s e st).map (fun x => f x.1)).sum =
      ((windowPayments s e st.payments).map f).sum := by
  unfold pJoin
  rw [List.map_flatMap, sumFlatMap]
  apply congrArg List.sum
  apply List.map_congr_left
  intro p hp
  have hpm : p ∈ st.payments := List.mem_of_mem_filter hp
  have hone := filterIdLenOne p.invoice_id st.invoices hnodup (hfk p hpm)
  have hc : ((st.invoices.filter (fun i => decide (i.id = p.invoice_id))).map
      (fun _ => f p)).sum =
      (st.invoices.filter (fun i => decide (i.id = p.invoice_id))).length * f p :=
    sumConstMap (f p) _
  have hcomp : ((fun (x : Payment × Invoice) => f x.1) ∘ (fun i : Invoice => (p, i)))
      = (fun _ : Invoice => f p) := by
    funext j
    rfl
  rw [List.map_map, hcomp, hc, hone, Nat.cast_one, one_mul]

/-- C3: in COLLECTED mode, when at least one Payment row falls in the queried
window the totals are the sum of the window Payment rows' amounts plus the
derived leftovers, every invoice having such a ledger row is excluded from
both invoice-derived branches (so it is counted exactly once, through its
ledger rows), and with zero window Payment rows the whole computation is the
derived fallback.  The primary-key/foreign-key store invariants of the schema
(`invoices.id` unique, `payments.invoice_id` references an invoice) are
assumed. -/
theorem c3_ledger_precedence (s e : Date) (st : Store)
    (hnodup : (st.invoices.map (fun i => i.id)).Nodup)
    (hfk : ∀ p ∈ st.payments, ∃ i ∈ st.invoices, i.id = p.invoice_id) :
    (countPaymentsBetween s e st = 0 →
      collectedTotals s e st = fallbackTotals s e st.invoices ∧
      ∀ mo : Nat, monthCollected s e st mo = monthFallback s e st.invoices mo) ∧
    (0 < countPaymentsBetween s e st →
      (collectedTotals s e st).total_invoiced_ttc =
        ((windowPayments s e st.payments).map (fun p => p.amount_ttc)).sum
        + ((fullLeftovers s e st).map (fun i => i.total_ttc)).sum
        + ((prorataLeftovers s e st).map
            (fun i => i.total_ttc - paidBalance i)).sum ∧
      (collectedTotals s e st).total_invoiced_ht =
        ((windowPayments s e st.payments).map (fun p => p.amount_ht)).sum
        + ((fullLeftovers s e st).map (fun i => i.total_ht)).sum
        + ((prorataLeftovers s e st).map
            (fun i => i.total_ht * paidRatio i)).sum ∧
      (collectedTotals s e st).total_vat_amount =
        ((windowPayments s e st.payments).map (fun p => p.amount_vat)).sum
        + ((fullLeftovers s e st).map (fun i => i.vat_amount)).sum
        + ((prorataLeftovers s e st).map
            (fun i => i.vat_amount * paidRatio i)).sum ∧
      ∀ i ∈ st.invoices,
        (∃ p ∈ st.payments, inW s e p.payment_date = true ∧ p.invoice_id = i.id) →
        i ∉ fullLeftovers s e st ∧ i ∉ prorataLeftovers s e st) := by
  constructor
  · intro h0
    constructor
    · unfold collectedTotals
      rw [h0]
      simp
    · intro mo
      unfold monthCollected
      rw [h0]
      simp
  · intro hpos
    have hgt : collectedTotals s e st = ledgerTotals s e st := by
      unfold collectedTotals
      rw [if_pos hpos]
    refine ⟨?_, ?_, ?_, ?_⟩
    · rw [hgt]
      unfold ledgerTotals ledgerRows
      simp only [List.map_append, List.sum_append, List.map_map,
        Function.comp_def]
      rw [pJoinSum s e st (fun p => p.amount_ttc) hnodup hfk]
    · rw [hgt]
      unfold ledgerTotals ledgerRows
      simp only [List.map_append, List.sum_append, List.map_map,
        Function.comp_def]
      rw [pJoinSum s e st (fun p => p.amount_ht) hnodup hfk]
    · rw [hgt]
      unfold ledgerTotals ledgerRows
      simp only [List.map_append, List.sum_append, List.map_map,
        Function.comp_def]
      rw [pJoinSum s e st (fun p => p.amount_vat) hnodup hfk]
    · intro i hi hex
      rcases hex with ⟨p, hp, hw, hid⟩
      have hpw : p ∈ windowPayments s e st.payments :=
        List.mem_filter.2 ⟨hp, hw⟩
      have hij : i ∈ st.invoices.filter (fun j => decide (j.id = p.invoice_id)) :=
        List.mem_filter.2 ⟨hi, by simp [hid]⟩
      have hmem : (p, i) ∈ pJoin s e st := by
        unfold pJoin
        exact List.mem_flatMap.2 ⟨p, hpw, List.mem_map.2 ⟨i, hij, rfl⟩⟩
      have hidmem : i.id ∈ pJoinIds s e st := by
        unfold pJoinIds
        exact List.mem_map.2 ⟨(p, i), hmem, hid⟩
      have hcont : (pJoinIds s e st).contains i.id = true := by
        exact List.elem_eq_true_of_mem hidmem
      constructor
      · intro hmemf
        have := (List.mem_filter.1 hmemf).2
        rw [hcont] at this
        simp at this
      · intro hmemp
        have := (List.mem_filter.1 hmemp).2
        rw [hcont] at this
        simp at this

/-- Witness for C3: the store `stC` has one window payment (its gate is
positive) and its collected TTC total decomposes as ledger sum plus derived
leftovers. -/
theorem c3_witness :
    0 < countPaymentsBetween d0101 d1231 stC ∧
    (collectedTotals d0101 d1231 stC).total_invoiced_ttc =
      ((windowPayments d0101 d1231 stC.payments).map
        (fun p => p.amount_ttc)).sum
      + ((fullLeftovers d0101 d1231 stC).map (fun i => i.total_ttc)).sum
      + ((prorataLeftovers d0101 d1231 stC).map
          (fun i => i.total_ttc - paidBalance i)).sum :=
  ⟨by decide,
    ((c3_ledger_precedence d0101 d1231 stC (by decide) (by decide)).2
      (by decide)).1⟩

/-- On a prorata invoice the scaled HT and VAT parts add up to the directly
computed TTC part `total_ttc - balance`. -/
theorem prorataSplit (i : Invoice)
    (h : i.total_ht + i.vat_amount = i.total_ttc)
    (h0 : 0 < paidBalance i) (hlt : paidBalance i < i.total_ttc) :
    i.total_ht * paidRatio i + i.vat_amount * paidRatio i =
      i.total_ttc - paidBalance i := by
  have httc : i.total_ttc ≠ 0 := by
    have : (0 : ℚ) < i.total_ttc := lt_trans h0 hlt
    exact ne_of_gt this
  rw [paidRatio, if_neg httc, ← add_mul, h]
  field_simp

/-- Per-invoice HT + VAT = TTC for the collected-mode `CASE` values. -/
theorem caseSplit (s e : Date) (i : Invoice)
    (h : i.total_ht + i.vat_amount = i.total_ttc) :
    caseHT s e i + caseVAT s e i = caseTTC s e i := by
  unfold caseHT caseVAT caseTTC
  by_cases hf : fullB s e i
  · simp [hf, h]
  · by_cases hpr : prorataB s e i
    · simp only [hf, hpr, if_true, if_false]
      have hpa : prorataAmtB i = true := by
        have := hpr
        unfold prorataB at this
        exact (Bool.and_eq_true_iff.1 this).1
      have h0 : 0 < paidBalance i := by
        have := (Bool.and_eq_true_iff.1 hpa).1
        simpa using this
      have hlt : paidBalance i < i.total_ttc := by
        have := (Bool.and_eq_true_iff.1 hpa).2
        simpa using this
      exact prorataSplit i h h0 hlt
    · simp [hf, hpr]

/-- Every `all_rows` row of the ledger totals query satisfies
HT + VAT = TTC when the store rows do. -/
theorem ledgerRowSplit (s e : Date) (st : Store)
    (hi : ∀ i ∈ st.invoices, i.total_ht + i.vat_amount = i.total_ttc)
    (hp : ∀ p ∈ st.payments, p.amount_ht + p.amount_vat = p.amount_ttc) :
    ∀ r ∈ ledgerRows s e st, r.amount_ht + r.amount_vat = r.amount_ttc := by
  intro r hr
  unfold ledgerRows at hr
  rcases List.mem_append.1 hr with hr' | hrC
  · rcases List.mem_append.1 hr' with hrA | hrB
    · rcases List.mem_map.1 hrA with ⟨pi, hpi, rfl⟩
      have : pi.1 ∈ windowPayments s e st.payments := by
        unfold pJoin at hpi
        rcases List.mem_flatMap.1 hpi with ⟨p, hpw, hin⟩
        rcases List.mem_map.1 hin with ⟨j, _, rfl⟩
        exact hpw
      exact hp pi.1 (List.mem_of_mem_filter this)
    · rcases List.mem_map.1 hrB with ⟨i, hifl, rfl⟩
      exact hi i (List.mem_of_mem_filter hifl)
  · rcases List.mem_map.1 hrC with ⟨i, hipl, rfl⟩
    have himem : i ∈ st.invoices := List.mem_of_mem_filter hipl
    have hprB : (prorataB s e i &&
        !((pJoinIds s e st).contains i.id)) = true := (List.mem_filter.1 hipl).2
    have hpa : prorataAmtB i = true := by
      have h1 := (Bool.and_eq_true_iff.1 hprB).1
      unfold prorataB at h1
      exact (Bool.and_eq_true_iff.1 h1).1
    have h0 : 0 < paidBalance i := by
      have := (Bool.and_eq_true_iff.1 hpa).1
      simpa using this
    have hlt : paidBalance i < i.total_ttc := by
      have := (Bool.and_eq_true_iff.1 hpa).2
      simpa using this
    exact prorataSplit i (hi i himem) h0 hlt

/-- Bounds carried by a true prorata condition. -/
theorem prorataBounds (s e : Date) (i : Invoice) (h : prorataB s e i = true) :
    0 < paidBalance i ∧ paidBalance i < i.total_ttc := by
  have hpa : prorataAmtB i = true := by
    unfold prorataB at h
    exact (Bool.and_eq_true_iff.1 h).1
  constructor
  · have := (Bool.and_eq_true_iff.1 hpa).1
    simpa using this
  · have := (Bool.and_eq_true_iff.1 hpa).2
    simpa using this

/-- HT + VAT = TTC for the collected-mode totals (both paths). -/
theorem collectedTotalsSplit (s e : Date) (st : Store)
    (hi : ∀ i ∈ st.invoices, i.total_ht + i.vat_amount = i.total_ttc)
    (hp : ∀ p ∈ st.payments, p.amount_ht + p.amount_vat = p.amount_ttc) :
    (collectedTotals s e st).total_invoiced_ht +
      (collectedTotals s e st).total_vat_amount =
      (collectedTotals s e st).total_invoiced_ttc := by
  unfold collectedTotals
  by_cases hg : 0 < countPaymentsBetween s e st
  · simp only [hg, if_true]
    exact listSumSplit _ _ _ (ledgerRows s e st) (ledgerRowSplit s e st hi hp)
  · simp only [hg, if_false]
    exact listSumSplit _ _ _ st.invoices
      (fun i hi' => caseSplit s e i (hi i hi'))

/-- HT + VAT = TTC for the invoiced-mode totals. -/
theorem invoicedTotalsSplit (s e : Date) (sf : StatusArg) (l : List Invoice)
    (hi : ∀ i ∈ l, i.total_ht + i.vat_amount = i.total_ttc) :
    (invoicedTotals s e sf l).total_invoiced_ht +
      (invoicedTotals s e sf l).total_vat_amount =
      (invoicedTotals s e sf l).total_invoiced_ttc := by
  unfold invoicedTotals
  exact listSumSplit _ _ _ (invoicedRows s e sf l)
    (fun i hi' => hi i (List.mem_of_mem_filter hi'))

/-- HT + VAT = TTC for every collected-mode monthly group (both paths). -/
theorem monthCollectedSplit (ys ye : Date) (st : Store) (mo : Nat)
    (hi : ∀ i ∈ st.invoices, i.total_ht + i.vat_amount = i.total_ttc)
    (hp : ∀ p ∈ st.payments, p.amount_ht + p.amount_vat = p.amount_ttc) :
    (monthCollected ys ye st mo).ht + (monthCollected ys ye st mo).vat =
      (monthCollected ys ye st mo).ttc := by
  unfold monthCollected
  by_cases hg : 0 < countPaymentsBetween ys ye st
  · simp only [hg, if_true]
    unfold monthLedger
    have hA := listSumSplit (fun p : Payment => p.amount_ht)
      (fun p => p.amount_vat) (fun p => p.amount_ttc)
      ((windowPayments ys ye st.payments).filter
        (fun p => decide (p.payment_date.m = mo)))
      (fun p hp' => hp p
        (List.mem_of_mem_filter (List.mem_of_mem_filter hp')))
    have hB := listSumSplit (fun i : Invoice => i.total_ht)
      (fun i => i.vat_amount) (fun i => i.total_ttc)
      (st.invoices.filter
        (fun i => fullB ys ye i && decide (optMonth i.paid_on = mo) &&
          !(((windowPayments ys ye st.payments).map
            (fun p => p.invoice_id)).contains i.id)))
      (fun i hi' => hi i (List.mem_of_mem_filter hi'))
    have hC := listSumSplit (fun i : Invoice => i.total_ht * paidRatio i)
      (fun i => i.vat_amount * paidRatio i)
      (fun i => i.total_ttc - paidBalance i)
      (st.invoices.filter
        (fun i => prorataB ys ye i && decide (optMonth (paidDate i) = mo) &&
          !(((windowPayments ys ye st.payments).map
            (fun p => p.invoice_id)).contains i.id)))
      (fun i hi' => by
        have hpred := (List.mem_filter.1 hi').2
        have hprB : prorataB ys ye i = true := by
          have h1 := (Bool.and_eq_true_iff.1 hpred).1
          exact (Bool.and_eq_true_iff.1 h1).1
        have hb := prorataBounds ys ye i hprB
        exact prorataSplit i (hi i (List.mem_of_mem_filter hi')) hb.1 hb.2)
    dsimp only
    linarith
  · simp only [hg, if_false]
    unfold monthFallback
    have hB := listSumSplit (fun i : Invoice => i.total_ht)
      (fun i => i.vat_amount) (fun i => i.total_ttc)
      (st.invoices.filter
        (fun i => fullB ys ye i && decide (optMonth i.paid_on = mo)))
      (fun i hi' => hi i (List.mem_of_mem_filter hi'))
    have hC := listSumSplit (fun i : Invoice => i.total_ht * paidRatio i)
      (fun i => i.vat_amount * paidRatio i)
      (fun i => i.total_ttc - paidBalance i)
      (st.invoices.filter
        (fun i => prorataB ys ye i && decide (optMonth (paidDate i) = mo)))
      (fun i hi' => by
        have hpred := (List.mem_filter.1 hi').2
        have hprB : prorataB ys ye i = true :=
          (Bool.and_eq_true_iff.1 hpred).1
        have hb := prorataBounds ys ye i hprB
        exact prorataSplit i (hi i (List.mem_of_mem_filter hi')) hb.1 hb.2)
    dsimp only
    linarith

/-- HT + VAT = TTC for every invoiced-mode monthly group. -/
theorem monthInvoicedSplit (y : Nat) (sf : StatusArg) (l : List Invoice)
    (mo : Nat)
    (hi : ∀ i ∈ l, i.total_ht + i.vat_amount = i.total_ttc) :
    (monthInvoiced y sf l mo).ht + (monthInvoiced y sf l mo).vat =
      (monthInvoiced y sf l mo).ttc := by
  unfold monthInvoiced
  exact listSumSplit _ _ _ _
    (fun i hi' => hi i
      (List.mem_of_mem_filter (List.mem_of_mem_filter hi')))

/-- C4: assuming every invoice row satisfies `total_ht + vat_amount =
total_ttc` and every payment row satisfies `amount_ht + amount_vat =
amount_ttc`, every result returned by the revenue aggregation satisfies
`total_invoiced_ht + total_vat_amount = total_invoiced_ttc`, both on the
top-level totals and on each monthly row (exact over `ℚ`, hence within any
floating-point tolerance). -/
theorem c4_ht_plus_vat (ts cy : Nat) (a : Args) (st : Store) (d : RevenueData)
    (hi : ∀ i ∈ st.invoices, i.total_ht + i.vat_amount = i.total_ttc)
    (hp : ∀ p ∈ st.payments, p.amount_ht + p.amount_vat = p.amount_ttc)
    (hd : envData (executeRevenue ts cy a st) = some d) :
    d.total_invoiced_ht + d.total_vat_amount = d.total_invoiced_ttc ∧
    ∀ r ∈ d.monthly_breakdown,
      r.total_invoiced_ht + r.total_vat_amount = r.total_invoiced_ttc := by
  simp only [executeRevenue, executeRevenueBody, envData,
    Option.some.injEq] at hd
  subst hd
  constructor
  · by_cases hc : a.filter_by_payment_date.getD true = true
    · simp only [hc, if_true]
      exact collectedTotalsSplit _ _ st hi hp
    · simp only [hc, if_false]
      exact invoicedTotalsSplit _ _ _ _ hi
  · intro r hr
    simp only [monthlyBreakdown, List.mem_map] at hr
    rcases hr with ⟨k, _, rfl⟩
    by_cases hc : a.filter_by_payment_date.getD true = true
    · simp only [hc, if_true]
      exact monthCollectedSplit _ _ st _ hi hp
    · simp only [hc, if_false]
      exact monthInvoicedSplit _ _ _ _ hi

/-- The arguments object `{ year: 2024 }` (collected mode by default). -/
def argsY : Args := ⟨some 2024, none, none, none, none, .tous, none⟩

unseal Rat.add Rat.sub Rat.mul Rat.inv in
/-- Witness for C4: the hypotheses hold on the store carrying Scenario A, B
and C invoices plus the ledger payment, and the returned 2024 totals satisfy
HT + VAT = TTC. -/
theorem c4_witness :
    (∀ i ∈ (⟨[invA, invB, invC], [payC]⟩ : Store).invoices,
      i.total_ht + i.vat_amount = i.total_ttc) ∧
    ∀ d ∈ envData (executeRevenue 0 2024 argsY ⟨[invA, invB, invC], [payC]⟩),
      d.total_invoiced_ht + d.total_vat_amount = d.total_invoiced_ttc := by
  refine ⟨by decide, ?_⟩
  intro d hd
  exact (c4_ht_plus_vat 0 2024 argsY ⟨[invA, invB, invC], [payC]⟩ d
    (by decide) (by decide) hd).1

/-- The dual-bucket invoice of the additivity failing input: status PAID with
`paid_on` 2024-03-15 in the year, and simultaneously a prorata balance of 400
out of 1000 with `payment_date` 2024-05-01 in the year. -/
def inv5 : Invoice :=
  ⟨1, 7, 1, ⟨2024, 1, 10⟩, some ⟨2024, 3, 15⟩, some ⟨2024, 5, 1⟩, none,
    .bnum 400, 800, 1000, 200⟩

/-- Store holding only `inv5`, with an empty payments ledger (fallback path). -/
def st5 : Store := ⟨[inv5], []⟩

unseal Rat.add Rat.sub Rat.mul Rat.inv in
/-- C5: the claim is right and the code is wrong.  For `year = 2024` in
COLLECTED mode on store `st5`, the top-level total is 1000 (the totals
`CASE` gives the fully-settled arm precedence), but the monthly rows sum to
1600: the fallback monthly `UNION ALL` counts the same invoice once in March
(full 1000) and once in May (prorata 600), with no mutual exclusion — so
`SUM(monthly) = total` fails by 600. -/
theorem c5_additivity_failure :
    (envData (executeRevenue 0 2024 argsY st5)).map
      (fun d => d.total_invoiced_ttc) = some 1000 ∧
    ((envBreakdown (executeRevenue 0 2024 argsY st5)).map
      (fun r => r.total_invoiced_ttc)).sum = 1600 := by
  decide

/-- The emitted month numbers of any revenue breakdown are 1..12 in order. -/
theorem monthlyBreakdownMonths (f : Nat → MVals) :
    (monthlyBreakdown f).map (fun r => r.month) =
      (List.range 12).map (fun k => k + 1) := by
  unfold monthlyBreakdown
  rw [List.map_map]
  rfl

/-- The emitted month names of any revenue breakdown are the French table. -/
theorem monthlyBreakdownNames (f : Nat → MVals) :
    (monthlyBreakdown f).map (fun r => r.month_name) = frenchMonths := by
  unfold monthlyBreakdown
  rw [List.map_map]
  rfl

/-- Row `mo` (position `mo - 1`) of a revenue breakdown carries month `mo`,
its French name and the month-`mo` group values. -/
theorem monthlyBreakdownGet (f : Nat → MVals) (mo : Nat)
    (h1 : 1 ≤ mo) (h2 : mo ≤ 12) :
    (monthlyBreakdown f)[mo - 1]? =
      some ⟨mo, getMonthName mo, (f mo).cnt, (f mo).ttc, (f mo).ht,
        (f mo).vat⟩ := by
  unfold monthlyBreakdown
  have hlt : mo - 1 < 12 := by omega
  rw [List.getElem?_map, List.getElem?_range hlt]
  have hmo : mo - 1 + 1 = mo := by omega
  simp [hmo]

/-- The emitted month numbers of any quotes breakdown are 1..12 in order. -/
theorem qMonthlyBreakdownMonths (f : Nat → MVals) :
    (qMonthlyBreakdown f).map (fun r => r.month) =
      (List.range 12).map (fun k => k + 1) := by
  unfold qMonthlyBreakdown
  rw [List.map_map]
  rfl

/-- The emitted month names of any quotes breakdown are the French table. -/
theorem qMonthlyBreakdownNames (f : Nat → MVals) :
    (qMonthlyBreakdown f).map (fun r => r.month_name) = frenchMonths := by
  unfold qMonthlyBreakdown
  rw [List.map_map]
  rfl

/-- Row `mo` of a quotes breakdown carries month `mo`, its French name and
the month-`mo` group values. -/
theorem qMonthlyBreakdownGet (f : Nat → MVals) (mo : Nat)
    (h1 : 1 ≤ mo) (h2 : mo ≤ 12) :
    (qMonthlyBreakdown f)[mo - 1]? =
      some ⟨mo, getMonthName mo, (f mo).cnt, (f mo).ttc, (f mo).ht,
        (f mo).vat⟩ := by
  unfold qMonthlyBreakdown
  have hlt : mo - 1 < 12 := by omega
  rw [List.getElem?_map, List.getElem?_range hlt]
  have hmo : mo - 1 + 1 = mo := by omega
  simp [hmo]

/-- A month with no settlement activity yields the zero collected group. -/
theorem monthCollectedZero (ys ye : Date) (st : Store) (mo : Nat)
    (hNoInv : ∀ i ∈ st.invoices, optMonth i.paid_on ≠ mo ∧
      optMonth (paidDate i) ≠ mo)
    (hNoPay : ∀ p ∈ st.payments, p.payment_date.m ≠ mo) :
    monthCollected ys ye st mo = ⟨0, 0, 0, 0⟩ := by
  have hpm : (windowPayments ys ye st.payments).filter
      (fun p => decide (p.payment_date.m = mo)) = [] := by
    rw [List.filter_eq_nil_iff]
    intro p hp
    simp [hNoPay p (List.mem_of_mem_filter hp)]
  have hfullsL : st.invoices.filter
      (fun i => fullB ys ye i && decide (optMonth i.paid_on = mo) &&
        !(((windowPayments ys ye st.payments).map
          (fun p => p.invoice_id)).contains i.id)) = [] := by
    rw [List.filter_eq_nil_iff]
    intro i hi
    simp [(hNoInv i hi).1]
  have hprosL : st.invoices.filter
      (fun i => prorataB ys ye i && decide (optMonth (paidDate i) = mo) &&
        !(((windowPayments ys ye st.payments).map
          (fun p => p.invoice_id)).contains i.id)) = [] := by
    rw [List.filter_eq_nil_iff]
    intro i hi
    simp [(hNoInv i hi).2]
  have hfullsF : st.invoices.filter
      (fun i => fullB ys ye i && decide (optMonth i.paid_on = mo)) = [] := by
    rw [List.filter_eq_nil_iff]
    intro i hi
    simp [(hNoInv i hi).1]
  have hprosF : st.invoices.filter
      (fun i => prorataB ys ye i && decide (optMonth (paidDate i) = mo)) = [] := by
    rw [List.filter_eq_nil_iff]
    intro i hi
    simp [(hNoInv i hi).2]
  unfold monthCollected
  by_cases hg : 0 < countPaymentsBetween ys ye st
  · simp only [hg, if_true]
    simp only [monthLedger, hpm, hfullsL, hprosL]
    simp
  · simp only [hg, if_false]
    simp only [monthFallback, hfullsF, hprosF]
    simp

/-- A month with no invoice issued in it yields the zero invoiced group. -/
theorem monthInvoicedZero (y : Nat) (sf : StatusArg) (l : List Invoice)
    (mo : Nat) (hNo : ∀ i ∈ l, i.invoice_date.m ≠ mo) :
    monthInvoiced y sf l mo = ⟨0, 0, 0, 0⟩ := by
  unfold monthInvoiced
  have hrows : (invoicedRows ⟨y, 1, 1⟩ ⟨y, 12, 31⟩ sf l).filter
      (fun i => decide (i.invoice_date.m = mo)) = [] := by
    rw [List.filter_eq_nil_iff]
    intro i hi
    simp [hNo i (List.mem_of_mem_filter hi)]
  rw [hrows]
  simp

/-- A month with no quote dated in it yields the zero quotes group. -/
theorem qMonthZero (y : Nat) (sf : QStatusArg) (l : List Quote) (mo : Nat)
    (hNo : ∀ q ∈ l, q.quote_date.m ≠ mo) :
    qMonth y sf l mo = ⟨0, 0, 0, 0⟩ := by
  unfold qMonth
  have hrows : (quoteRows ⟨y, 1, 1⟩ ⟨y, 12, 31⟩ sf l).filter
      (fun q => decide (q.quote_date.m = mo)) = [] := by
    rw [List.filter_eq_nil_iff]
    intro q hq
    simp [hNo q (List.mem_of_mem_filter hq)]
  rw [hrows]
  simp

/-- The revenue breakdown is always the 12-month fill of the mode's monthly
group function. -/
theorem revBreakdownEq (ts cy : Nat) (a : Args) (st : Store) :
    envBreakdown (executeRevenue ts cy a st) = monthlyBreakdown
      (if a.filter_by_payment_date.getD true = true then
        monthCollected (monthlyWindow a (resolvePeriod cy a)).1
          (monthlyWindow a (resolvePeriod cy a)).2 st
      else monthInvoiced (resolvePeriod cy a).calculatedYear a.status
        st.invoices) := by
  simp only [executeRevenue, executeRevenueBody, envBreakdown]

/-- The quotes breakdown is always the 12-month fill of the quotes monthly
group function over the anchor year. -/
theorem qBreakdownEq (ts cy : Nat) (qa : QArgs) (ql : List Quote) :
    qEnvBreakdown (executeQuotes ts cy qa ql) = qMonthlyBreakdown
      (qMonth (resolveQuotesPeriod cy qa).calculatedYear qa.status ql) := by
  simp only [executeQuotes, qEnvBreakdown]

/-- A collected-mode query over the custom range 2024-05-01 .. 2024-06-30. -/
def a6 : Args :=
  ⟨none, none, none, some ⟨2024, 5, 1⟩, some ⟨2024, 6, 30⟩, .tous, none⟩

/-- Store holding only the Scenario A invoice (paid in March 2024). -/
def st6 : Store := ⟨[invA], []⟩

unseal Rat.add Rat.sub Rat.mul Rat.inv in
/-- C6: false as stated.  With a custom date range (COLLECTED mode) the
monthly breakdown is computed over that range, not over the 12 months of the
anchor year: the invoice paid on 2024-03-15 shows in the March row of the
explicit-year query but the March row of the May-June custom-range query is
zero, and the two breakdowns differ. -/
theorem c6_counterexample :
    (envBreakdown (executeRevenue 0 2024 a6 st6))[2]? =
      some ⟨3, "Mars", 0, 0, 0, 0⟩ ∧
    (envBreakdown (executeRevenue 0 2024 argsY st6))[2]? =
      some ⟨3, "Mars", 1, 1200, 1000, 200⟩ ∧
    envBreakdown (executeRevenue 0 2024 a6 st6) ≠
      envBreakdown (executeRevenue 0 2024 argsY st6) := by
  decide

/-- C6 (amended): for every call (revenue in either mode, quotes; any period
shape, empty store included) the breakdown has exactly 12 rows in calendar
order 1..12 labeled with the fixed French month names, a month with no
matching data gets an all-zero row, and — except for COLLECTED mode with an
explicit `start_date`/`end_date` pair, which aggregates over that custom
range instead — the monthly window is the 12 months of the period's anchor
year. -/
theorem c6_breakdown_shape (ts cy : Nat) (a : Args) (st : Store) (qa : QArgs)
    (ql : List Quote) (mo : Nat) (h1 : 1 ≤ mo) (h2 : mo ≤ 12)
    (hNoInv : ∀ i ∈ st.invoices, optMonth i.paid_on ≠ mo ∧
      optMonth (paidDate i) ≠ mo ∧ i.invoice_date.m ≠ mo)
    (hNoPay : ∀ p ∈ st.payments, p.payment_date.m ≠ mo)
    (hNoQ : ∀ q ∈ ql, q.quote_date.m ≠ mo) :
    (envBreakdown (executeRevenue ts cy a st)).map (fun r => r.month) =
      (List.range 12).map (fun k => k + 1) ∧
    (envBreakdown (executeRevenue ts cy a st)).map (fun r => r.month_name) =
      frenchMonths ∧
    (envBreakdown (executeRevenue ts cy a st)).length = 12 ∧
    (envBreakdown (executeRevenue ts cy a st))[mo - 1]? =
      some ⟨mo, getMonthName mo, 0, 0, 0, 0⟩ ∧
    (qEnvBreakdown (executeQuotes ts cy qa ql)).map (fun r => r.month) =
      (List.range 12).map (fun k => k + 1) ∧
    (qEnvBreakdown (executeQuotes ts cy qa ql)).map (fun r => r.month_name) =
      frenchMonths ∧
    (qEnvBreakdown (executeQuotes ts cy qa ql)).length = 12 ∧
    (qEnvBreakdown (executeQuotes ts cy qa ql))[mo - 1]? =
      some ⟨mo, getMonthName mo, 0, 0, 0, 0⟩ ∧
    ((a.start_date.isSome && a.end_date.isSome) = false →
      monthlyWindow a (resolvePeriod cy a) =
        (⟨(resolvePeriod cy a).calculatedYear, 1, 1⟩,
         ⟨(resolvePeriod cy a).calculatedYear, 12, 31⟩)) := by
  have hzero : (if a.filter_by_payment_date.getD true = true then
      monthCollected (monthlyWindow a (resolvePeriod cy a)).1
        (monthlyWindow a (resolvePeriod cy a)).2 st
      else monthInvoiced (resolvePeriod cy a).calculatedYear a.status
        st.invoices) mo = ⟨0, 0, 0, 0⟩ := by
    by_cases hc : a.filter_by_payment_date.getD true = true
    · simp only [hc, if_true]
      exact monthCollectedZero _ _ st mo
        (fun i hi => ⟨(hNoInv i hi).1, (hNoInv i hi).2.1⟩) hNoPay
    · simp only [hc, if_false]
      exact monthInvoicedZero _ _ _ mo (fun i hi => (hNoInv i hi).2.2)
  have hqzero : qMonth (resolveQuotesPeriod cy qa).calculatedYear qa.status
      ql mo = ⟨0, 0, 0, 0⟩ :=
    qMonthZero _ _ _ mo hNoQ
  refine ⟨?_, ?_, ?_, ?_, ?_, ?_, ?_, ?_, ?_⟩
  · rw [revBreakdownEq]
    exact monthlyBreakdownMonths _
  · rw [revBreakdownEq]
    exact monthlyBreakdownNames _
  · rw [revBreakdownEq]
    unfold monthlyBreakdown
    simp
  · rw [revBreakdownEq, monthlyBreakdownGet _ mo h1 h2, hzero]
  · rw [qBreakdownEq]
    exact qMonthlyBreakdownMonths _
  · rw [qBreakdownEq]
    exact qMonthlyBreakdownNames _
  · rw [qBreakdownEq]
    unfold qMonthlyBreakdown
    simp
  · rw [qBreakdownEq, qMonthlyBreakdownGet _ mo h1 h2, hqzero]
  · intro hns
    unfold monthlyWindow
    rcases hsd : a.start_date with _ | sd
    · rfl
    · rcases hed : a.end_date with _ | ed
      · rfl
      · rw [hsd, hed] at hns
        simp at hns

/-- A quote dated July 2024. -/
def q7 : Quote := ⟨1, 7, ⟨2024, 7, 3⟩, 1, 500, 600, 100⟩

/-- Quotes arguments supplying only year 2024. -/
def qaY : QArgs := ⟨some 2024, none, none, .tous⟩

/-- Witness for C6 (amended): on concrete calls, the breakdowns have 12 rows
and February (a month with no activity in either store) is an all-zero row. -/
theorem c6_witness :
    (envBreakdown (executeRevenue 0 2024 argsY st5)).length = 12 ∧
    (envBreakdown (executeRevenue 0 2024 argsY st5))[1]? =
      some ⟨2, getMonthName 2, 0, 0, 0, 0⟩ ∧
    (qEnvBreakdown (executeQuotes 0 2024 qaY [q7]))[1]? =
      some ⟨2, getMonthName 2, 0, 0, 0, 0⟩ := by
  have h := c6_breakdown_shape 0 2024 argsY st5 qaY [q7] 2 (by decide)
    (by decide) (by decide) (by decide) (by decide)
  exact ⟨h.2.2.1, h.2.2.2.1, h.2.2.2.2.2.2.2.1⟩

/-- Arguments with `start_date` after `end_date` (a reversed period). -/
def aBad : Args :=
  ⟨none, none, none, some ⟨2024, 12, 31⟩, some ⟨2024, 1, 1⟩, .tous, none⟩

/-- The empty store. -/
def stEmpty : Store := ⟨[], []⟩

unseal Rat.add Rat.sub Rat.mul Rat.inv in
/-- C7: false as stated.  A call whose `start_date` (2024-12-31) lies after
its `end_date` (2024-01-01) is not rejected: no `InvalidPeriod` error is
produced, the tool returns a success envelope carrying a (zero-valued)
result. -/
theorem c7_counterexample :
    envSuccess (executeRevenue 0 2024 aBad stEmpty) = true ∧
    envData (executeRevenue 0 2024 aBad stEmpty) ≠ none := by
  decide

/-- C7 (amended): the aggregator performs no period validation — reversed or
empty windows yield a success envelope (with empty-window totals) — but it
does never throw across its public boundary: with well-typed arguments and a
responsive store every call returns the success envelope, and the error
envelope produced by the catch handler carries no result data and
`success = false`. -/
theorem c7_no_throw (ts cy : Nat) (a : Args) (st : Store) :
    (∃ d : RevenueData, executeRevenue ts cy a st = .ok d ts) ∧
    (∀ (msg : String) (t : Nat),
      envData (Env.err msg t : Env RevenueData) = none ∧
      envSuccess (Env.err msg t : Env RevenueData) = false) :=
  ⟨⟨_, rfl⟩, fun _ _ => ⟨rfl, rfl⟩⟩

/-- Replacing the `filter_by_payment_date` argument. -/
def setFpd (a : Args) (b : Option Bool) : Args :=
  ⟨a.year, a.start_year, a.end_year, a.start_date, a.end_date, a.status, b⟩

/-- C8: omitting `filter_by_payment_date` is the same call as passing `true`
(COLLECTED mode), and the result's `query_type` is `"paid"`. -/
theorem c8_default_collected (ts cy : Nat) (a : Args) (st : Store)
    (h : a.filter_by_payment_date = none) :
    executeRevenue ts cy a st =
      executeRevenue ts cy (setFpd a (some true)) st ∧
    (envData (executeRevenue ts cy a st)).map (fun d => d.query_type) =
      some "paid" := by
  constructor
  · simp [executeRevenue, executeRevenueBody, setFpd, h, resolvePeriod,
      monthlyWindow]
  · simp [executeRevenue, executeRevenueBody, envData, h]

/-- Witness for C8: the year-2024 call without `filter_by_payment_date`
reports `query_type = "paid"`. -/
theorem c8_witness :
    argsY.filter_by_payment_date = none ∧
    (envData (executeRevenue 0 2024 argsY st5)).map
      (fun d => d.query_type) = some "paid" :=
  ⟨rfl, (c8_default_collected 0 2024 argsY st5 rfl).2⟩

unseal Rat.add Rat.sub Rat.mul Rat.inv in
/-- C9: false as stated.  Two calls with identical inputs against the
unchanged (empty) store differ byte-wise: `formatResult` stamps the call
timestamp into the envelope. -/
theorem c9_counterexample :
    executeRevenue 0 2024 argsY stEmpty ≠ executeRevenue 1 2024 argsY stEmpty := by
  decide

/-- C9 (amended): calling the aggregator twice with identical inputs against
an unchanged store yields identical result payloads and success flags — the
envelopes differ only in their `timestamp` field. -/
theorem c9_deterministic (t1 t2 cy : Nat) (a : Args) (st : Store) :
    envData (executeRevenue t1 cy a st) = envData (executeRevenue t2 cy a st) ∧
    envSuccess (executeRevenue t1 cy a st) =
      envSuccess (executeRevenue t2 cy a st) := by
  cases h : executeRevenueBody cy a st with
  | ok d => simp [executeRevenue, h, envData, envSuccess]
  | error m => simp [executeRevenue, h, envData, envSuccess]

/-- Dropping both date arguments. -/
def clearDates (a : Args) : Args :=
  ⟨a.year, a.start_year, a.end_year, none, none, a.status,
    a.filter_by_payment_date⟩

/-- C10: a call supplying `start_date` without `end_date` (or conversely),
with no year and no `start_year`/`end_year` pair, silently ignores the lone
date: the period defaults to the full current calendar year, the call is the
same as one without any date, and it succeeds. -/
theorem c10_lone_date_ignored (ts cy : Nat) (a : Args) (st : Store)
    (hme : (a.start_date.isSome = true ∧ a.end_date = none) ∨
      (a.start_date = none ∧ a.end_date.isSome = true))
    (hy : a.year = none)
    (hsy : truthy a.start_year = false ∨ truthy a.end_year = false) :
    resolvePeriod cy a = ⟨cy, ⟨cy, 1, 1⟩, ⟨cy, 12, 31⟩⟩ ∧
    executeRevenue ts cy a st = executeRevenue ts cy (clearDates a) st ∧
    envSuccess (executeRevenue ts cy a st) = true := by
  have htsy : (truthy a.start_year && truthy a.end_year) = false := by
    rcases hsy with h' | h' <;> simp [h']
  obtain ⟨ay, asy, aey, asd, aed, ast, afp⟩ := a
  replace hy : ay = none := hy
  subst hy
  replace htsy : (truthy asy && truthy aey) = false := htsy
  have h1 : truthy (none : Option Nat) = false := by simp [truthy]
  rcases hme with ⟨hs, he⟩ | ⟨hs, he⟩
  · replace he : aed = none := he
    subst he
    rcases asd with _ | sd
    · replace hs : (none : Option Date).isSome = true := hs
      simp at hs
    · have hr : resolvePeriod cy ⟨none, asy, aey, some sd, none, ast, afp⟩ =
          ⟨cy, ⟨cy, 1, 1⟩, ⟨cy, 12, 31⟩⟩ := by
        simp [resolvePeriod, h1, htsy]
      have hr' : resolvePeriod cy
          (⟨none, asy, aey, none, none, ast, afp⟩ : Args) =
          ⟨cy, ⟨cy, 1, 1⟩, ⟨cy, 12, 31⟩⟩ := by
        simp [resolvePeriod, h1, htsy]
      refine ⟨hr, ?_, rfl⟩
      simp only [executeRevenue, executeRevenueBody, hr, hr', clearDates,
        monthlyWindow]
  · replace hs : asd = none := hs
    subst hs
    rcases aed with _ | ed
    · replace he : (none : Option Date).isSome = true := he
      simp at he
    · have hr : resolvePeriod cy ⟨none, asy, aey, none, some ed, ast, afp⟩ =
          ⟨cy, ⟨cy, 1, 1⟩, ⟨cy, 12, 31⟩⟩ := by
        simp [resolvePeriod, h1, htsy]
      have hr' : resolvePeriod cy
          (⟨none, asy, aey, none, none, ast, afp⟩ : Args) =
          ⟨cy, ⟨cy, 1, 1⟩, ⟨cy, 12, 31⟩⟩ := by
        simp [resolvePeriod, h1, htsy]
      refine ⟨hr, ?_, rfl⟩
      simp only [executeRevenue, executeRevenueBody, hr, hr', clearDates,
        monthlyWindow]

/-- Arguments supplying a lone `start_date` 2024-05-01 and nothing else. -/
def aLone : Args :=
  ⟨none, none, none, some ⟨2024, 5, 1⟩, none, .tous, none⟩

/-- Witness for C10: on the lone-date call the period is the full current
(2024) calendar year and the call succeeds. -/
theorem c10_witness :
    resolvePeriod 2024 aLone = ⟨2024, ⟨2024, 1, 1⟩, ⟨2024, 12, 31⟩⟩ ∧
    envSuccess (executeRevenue 0 2024 aLone stEmpty) = true := by
  have h := c10_lone_date_ignored 0 2024 aLone stEmpty
    (Or.inl ⟨rfl, rfl⟩) rfl (Or.inl rfl)
  exact ⟨h.1, h.2.2⟩
